import Mathlib

/-!
Shallow embedding of `fastlane_decoder.py`: the fast-lane binary decoder,
the per-node geometry derivation, the coordinate/subsampling transform and
the CSV/text export drivers.  Python floats are modelled as exact rationals;
the transcendental primitives (`math.cos`, `math.sin`, `math.atan2`, `math.pi`)
and IEEE-754 float decoding (`struct.unpack` of `f`) are abstracted into an
`Ops` record, so every theorem below holds for an arbitrary interpretation of
those primitives.
-/

namespace FastLane

/-- Abstract interpretation of the transcendental / float primitives used by
the Python source: `math.pi`, `math.cos`, `math.sin`, `math.atan2`, and the
decoding of 4 raw bytes into a 32-bit float (`struct.unpack` format `f`). -/
structure Ops where
  pi : ℚ
  cos : ℚ → ℚ
  sin : ℚ → ℚ
  atan2 : ℚ → ℚ → ℚ
  decF32 : List ℕ → ℚ

/-- `math.degrees`: radians to degrees. -/
def degrees (O : Ops) (x : ℚ) : ℚ := x * 180 / O.pi

/-- `slideVec2d(point, angle, offset)`: move `point` by `offset` along heading
`angle` (degrees); `x += cos(angle·π/180)·offset`, `z -= sin(angle·π/180)·offset`,
`y` unchanged. -/
def slideVec2d (O : Ops) (point : ℚ × ℚ × ℚ) (angle : ℚ) (offset : ℚ) : ℚ × ℚ × ℚ :=
  let x := point.1 + O.cos (angle * O.pi / 180) * offset
  let z := point.2.2 - O.sin (angle * O.pi / 180) * offset
  (x, point.2.1, z)

/-- One `rawIdeal` record: `(x, y, z, distance, id)` (4 floats + 1 int). -/
structure IdealSample where
  x : ℚ
  y : ℚ
  z : ℚ
  distance : ℚ
  ident : Int
  deriving DecidableEq, Inhabited

/-- The derived node produced by `TrackDetailNode.__init__`.  `wallLeft` /
`wallRight` are `none` exactly when the wall computation raised (the Python
`except` branch sets them to `None`). -/
structure TrackDetailNode where
  ident : Int
  position : ℚ × ℚ × ℚ
  distance : ℚ
  direction : ℚ
  wallLeft : Option (ℚ × ℚ × ℚ)
  wallRight : Option (ℚ × ℚ × ℚ)
  trackCenter : ℚ × ℚ × ℚ
  deriving DecidableEq, Inhabited

/-- `TrackDetailNode.__init__(rawIdeal, prevRawIdeal, rawDetail)`.  Accessing
`rawDetail[5]` / `rawDetail[6]` raises (→ fall-back branch) exactly when the
tuple has fewer than 7 entries; all other arithmetic in the `try` block is
total on floats. -/
def mkTrackDetailNode (O : Ops) (rawIdeal prevRawIdeal : IdealSample)
    (rawDetail : List ℚ) : TrackDetailNode :=
  let position : ℚ × ℚ × ℚ := (rawIdeal.x, rawIdeal.y, rawIdeal.z)
  let direction : ℚ :=
    -(degrees O (O.atan2 (prevRawIdeal.z - position.2.1) (position.1 - prevRawIdeal.x)))
  match rawDetail[5]?, rawDetail[6]? with
  | some wl, some wr =>
    let wallLeft := slideVec2d O position (-direction + 90) wl
    let wallRight := slideVec2d O position (-direction - 90) wr
    { ident := rawIdeal.ident, position := position, distance := rawIdeal.distance,
      direction := direction,
      wallLeft := some wallLeft, wallRight := some wallRight,
      trackCenter := ((wallLeft.1 + wallRight.1) / 2, (wallLeft.2.1 + wallRight.2.1) / 2,
                      (wallLeft.2.2 + wallRight.2.2) / 2) }
  | _, _ =>
    { ident := rawIdeal.ident, position := position, distance := rawIdeal.distance,
      direction := direction,
      wallLeft := none, wallRight := none, trackCenter := position }

/-- The fixed axis change applied in `nodes_to_dicts`: `x, z = z, -x`,
i.e. `(x, y, z) ↦ (z, y, -x)`. -/
def rotate90 (p : ℚ × ℚ × ℚ) : ℚ × ℚ × ℚ := (p.2.2, p.2.1, -p.1)

/-- One output dict of `nodes_to_dicts`.  `walls = none` models a record
without the six wall keys; `walls = some (l, r)` models the six wall keys
with `none` standing for Python `None`. -/
structure OutputRecord where
  index : ℕ
  ident : Int
  x : ℚ
  y : ℚ
  z : ℚ
  distance : ℚ
  direction : ℚ
  walls : Option (Option (ℚ × ℚ × ℚ) × Option (ℚ × ℚ × ℚ))
  deriving DecidableEq, Inhabited

/-- The dict built for the node at original position `idx` in the loop body of
`nodes_to_dicts`. -/
def recordOf (idx : ℕ) (include_walls : Bool) (n : TrackDetailNode) : OutputRecord :=
  let p := rotate90 n.position
  { index := idx, ident := n.ident, x := p.1, y := p.2.1, z := p.2.2,
    distance := n.distance, direction := n.direction,
    walls := if include_walls then
        some (n.wallLeft.map rotate90, n.wallRight.map rotate90)
      else none }

/-- The `for idx, n in enumerate(nodes)` loop of `nodes_to_dicts`, carrying the
running enumerate index. -/
def nodesToDictsAux (include_walls : Bool) (subsample : ℕ) :
    ℕ → List TrackDetailNode → List OutputRecord
  | _, [] => []
  | idx, n :: rest =>
    if idx % subsample ≠ 0 then nodesToDictsAux include_walls subsample (idx + 1) rest
    else recordOf idx include_walls n :: nodesToDictsAux include_walls subsample (idx + 1) rest

/-- `nodes_to_dicts(nodes, include_walls, subsample)`. -/
def nodes_to_dicts (nodes : List TrackDetailNode) (include_walls : Bool)
    (subsample : ℕ) : List OutputRecord :=
  nodesToDictsAux include_walls subsample 0 nodes

/-! ### Binary record reader (`getNodesFromFastLane`) -/

/-- Little-endian unsigned value of (up to) 4 bytes. -/
def decodeU32 (bs : List ℕ) : ℕ :=
  bs.getD 0 0 + 256 * bs.getD 1 0 + 65536 * bs.getD 2 0 + 16777216 * bs.getD 3 0

/-- `struct.unpack("i", ·)`: little-endian two's-complement signed 32-bit. -/
def decodeI32 (bs : List ℕ) : Int :=
  let v := decodeU32 bs
  if v < 2 ^ 31 then (v : Int) else (v : Int) - 2 ^ 32

/-- Decode one 20-byte `rawIdeal` record: `struct.unpack("4f i", rec)`. -/
def decodeIdealSample (O : Ops) (bs : List ℕ) : IdealSample :=
  { x := O.decF32 (bs.take 4), y := O.decF32 ((bs.drop 4).take 4),
    z := O.decF32 ((bs.drop 8).take 4), distance := O.decF32 ((bs.drop 12).take 4),
    ident := decodeI32 ((bs.drop 16).take 4) }

/-- The `for i in range(length)` loop reading `rawIdeal` records: each
iteration reads 20 bytes and fails the whole parse if fewer remain. -/
def readRawIdeal (O : Ops) : ℕ → List ℕ → Option (List IdealSample × List ℕ)
  | 0, bs => some ([], bs)
  | n + 1, bs =>
    if bs.length < 20 then none
    else match readRawIdeal O n (bs.drop 20) with
      | none => none
      | some (xs, rest) => some (decodeIdealSample O (bs.take 20) :: xs, rest)

/-- Python list indexing `xs[i]` with negative-index wrap-around; `none`
models an `IndexError`. -/
def pyGet (xs : List α) (i : Int) : Option α :=
  if 0 ≤ i then xs.get? i.toNat
  else if 0 ≤ i + xs.length then xs.get? (i + xs.length).toNat
  else none

/-- `struct.unpack("18f", ·)` on a 72-byte chunk. -/
def decodeDetail (O : Ops) (bs : List ℕ) : List ℚ :=
  (List.range 18).map fun j => O.decF32 ((bs.drop (4 * j)).take 4)

/-- One `buffer.read(4*18)` plus the zero-fill fall-back: fewer than 72 bytes
remaining yields an all-zero 18-float record. -/
def detailChunk (O : Ops) (buf : List ℕ) : List ℚ :=
  if (buf.take 72).length < 72 then List.replicate 18 (0 : ℚ)
  else decodeDetail O (buf.take 72)

/-- The `for i in range(extraCount)` loop.  The `prevRawIdeal` lookup happens
OUTSIDE the per-record `try`, so its `IndexError` aborts the whole parse
(`.error ()`); the `rawIdeal[i]` lookup happens inside the `try` (after the
72-byte read), so its failure merely skips the record. -/
def detailLoop (O : Ops) (rawIdeal : List IdealSample) (length : Int) :
    ℕ → ℕ → List ℕ → List TrackDetailNode → Except Unit (List TrackDetailNode)
  | _, 0, _, acc => .ok acc
  | i, n + 1, buf, acc =>
    match pyGet rawIdeal (if (0 : Int) < i then (i : Int) - 1 else length - 1) with
    | none => .error ()
    | some prev =>
      let rawDetail := detailChunk O buf
      match pyGet rawIdeal (i : Int) with
      | none => detailLoop O rawIdeal length (i + 1) n (buf.drop 72) acc
      | some cur =>
        detailLoop O rawIdeal length (i + 1) n (buf.drop 72)
          (acc ++ [mkTrackDetailNode O cur prev rawDetail])

/-- The "previous" ideal sample that `detailLoop` looks up for detail index
`i` when the ideal block has `L` records: index `i - 1` for `i > 0`, wrapping
to index `L - 1` for `i = 0`. -/
def prevSample (rawIdeal : List IdealSample) (L : ℕ) (i : ℕ) : IdealSample :=
  if 0 < i then rawIdeal.getD (i - 1) default else rawIdeal.getD (L - 1) default

/-- The `length` header field: bytes 4..8 decoded as a signed int. -/
def headerLength (bs : List ℕ) : Int := decodeI32 ((bs.drop 4).take 4)

/-- The `extraCount` field read from the bytes after the ideal block: fewer
than 4 bytes remaining (EOF) gives 0. -/
def extraCountOf (rest : List ℕ) : Int :=
  if (rest.take 4).length < 4 then 0 else decodeI32 (rest.take 4)

/-- `getNodesFromFastLane`, on the file's bytes.  `.error ()` models the
`RuntimeError` re-raised by the outer `except`. -/
def getNodesFromFastLane (O : Ops) (bs : List ℕ) : Except Unit (List TrackDetailNode) :=
  if bs.length < 16 then .error ()
  else
    match readRawIdeal O (headerLength bs).toNat (bs.drop 16) with
    | none => .error ()
    | some (rawIdeal, rest) =>
      detailLoop O rawIdeal (headerLength bs) 0 (extraCountOf rest).toNat (rest.drop 4) []

/-! ### Export drivers -/

/-- One CSV write operation: the header row (with its key list) or a data row. -/
inductive CsvOp where
  | header (keys : List String)
  | row (r : OutputRecord)
  deriving DecidableEq

/-- `list(d.keys())` for an output dict, in insertion order. -/
def recordKeys (r : OutputRecord) : List String :=
  ["index", "id", "x", "y", "z", "distance", "direction"] ++
    (if r.walls.isSome then
        ["wallLeft_x", "wallLeft_y", "wallLeft_z", "wallRight_x", "wallRight_y", "wallRight_z"]
      else [])

/-- `write_csv(dicts, out_file)`: first component is the created file's
content (`none` = the file is never opened/created), second the console
messages printed. -/
def write_csv (dicts : List OutputRecord) : Option (List CsvOp) × List String :=
  match dicts with
  | [] => (none, ["No data to write."])
  | d :: _ => (some (CsvOp.header (recordKeys d) :: dicts.map CsvOp.row), [])

/-- `write_txt(dicts, out_file)`: always opens (creates) the file, then writes
one `x,z` line per record; lines are modelled by the pair written. -/
def write_txt (dicts : List OutputRecord) : Option (List (ℚ × ℚ)) × List String :=
  (some (dicts.map fun d => (d.x, d.z)), [])

/-! ### Concrete interpretations and sample files -/

instance {ε α : Type} [DecidableEq ε] [DecidableEq α] : DecidableEq (Except ε α) := fun a b =>
  match a, b with
  | .ok x, .ok y => decidable_of_iff (x = y) (by simp)
  | .error x, .error y => decidable_of_iff (x = y) (by simp)
  | .ok _, .error _ => isFalse (by simp)
  | .error _, .ok _ => isFalse (by simp)

/-- A concrete interpretation of the abstract primitives, used to evaluate the
model on explicit inputs (the structural claims below do not depend on the
numeric values these functions return). -/
def opsEx : Ops :=
  { pi := 355 / 113, cos := fun _ => 1, sin := fun _ => 0,
    atan2 := fun _ _ => 0, decF32 := fun _ => 0 }

/-- A sample ideal record with distinct coordinates. -/
def idealEx : IdealSample := { x := 1, y := 2, z := 3, distance := 4, ident := 7 }

/-- File: header `(1, 2, 0, 0)`, two zero ideal records with ids 100 and 101,
`extraCount = 1`, and no detail bytes (the single detail record zero-fills). -/
def bytesEx : List ℕ :=
  [1, 0, 0, 0, 2, 0, 0, 0, 0, 0, 0, 0, 0, 0, 0, 0] ++
    (List.replicate 16 0 ++ [100, 0, 0, 0]) ++
    (List.replicate 16 0 ++ [101, 0, 0, 0]) ++ [1, 0, 0, 0]

/-- File: header with `length = 1`, one zero ideal record with id 100, and the
file ending right after the ideal block (no `extraCount` field). -/
def bytesNoExtra : List ℕ :=
  [1, 0, 0, 0, 1, 0, 0, 0, 0, 0, 0, 0, 0, 0, 0, 0] ++
    (List.replicate 16 0 ++ [100, 0, 0, 0])

/-- File: header with `length = 1`, one zero ideal record with id 100, and
`extraCount = 3` (exceeding `length` by 2), no detail bytes. -/
def bytesOverflow : List ℕ :=
  [1, 0, 0, 0, 1, 0, 0, 0, 0, 0, 0, 0, 0, 0, 0, 0] ++
    (List.replicate 16 0 ++ [100, 0, 0, 0]) ++ [3, 0, 0, 0]

def ideal100 : IdealSample := { x := 0, y := 0, z := 0, distance := 0, ident := 100 }

def ideal101 : IdealSample := { x := 0, y := 0, z := 0, distance := 0, ident := 101 }

/-- File: header with `length = 1`, one zero ideal record with id 100, and
`extraCount = 2` (exceeding `length` by exactly 1), no detail bytes. -/
def bytesEdge : List ℕ :=
  [1, 0, 0, 0, 1, 0, 0, 0, 0, 0, 0, 0, 0, 0, 0, 0] ++
    (List.replicate 16 0 ++ [100, 0, 0, 0]) ++ [2, 0, 0, 0]

/-- A node built from a zero-filled detail record (all 18 floats zero), as
produced for a truncated detail block. -/
def zeroDetailNode : TrackDetailNode :=
  mkTrackDetailNode opsEx idealEx idealEx (List.replicate 18 0)

/-- A detail record whose 18 floats are `0, 1, …, 17` (so the wall offsets at
indices 5 and 6 are 5 and 6). -/
def detailEx : List ℚ := (List.range 18).map fun j => (j : ℚ)

/-! ### Helper lemmas -/

lemma get?_eq_some_getD {α : Type} [Inhabited α] (xs : List α) (k : ℕ)
    (h : k < xs.length) : xs.get? k = some (xs.getD k default) := by
  rw [List.getD_eq_get?, List.get?_eq_get h]
  rfl

lemma pyGet_natCast {α : Type} (xs : List α) (i : ℕ) : pyGet xs (i : ℤ) = xs.get? i := by
  simp [pyGet]

lemma readRawIdeal_length (O : Ops) :
    ∀ (n : ℕ) (bs : List ℕ) (xs : List IdealSample) (rest : List ℕ),
      readRawIdeal O n bs = some (xs, rest) → xs.length = n := by
  intro n
  induction n with
  | zero =>
    intro bs xs rest h
    simp [readRawIdeal] at h
    simp [h.1]
  | succ n ih =>
    intro bs xs rest h
    rw [readRawIdeal] at h
    split at h
    · exact absurd h (by simp)
    · split at h
      · exact absurd h (by simp)
      · rename_i ys r heq
        simp only [Option.some.injEq, Prod.mk.injEq] at h
        rw [← h.1, List.length_cons, ih _ _ _ heq]

lemma filterMap_eq_map_of_forall_some {α β : Type} {f : α → Option β} {g : α → β} :
    ∀ {l : List α}, (∀ a ∈ l, f a = some (g a)) → l.filterMap f = l.map g := by
  intro l
  induction l with
  | nil => intro _; rfl
  | cons a l ih =>
    intro h
    rw [List.filterMap_cons_some (h a (by simp)), List.map_cons,
      ih fun b hb => h b (by simp [hb])]

lemma length_filterMap_range_get? {α β : Type} [Inhabited α] (xs : List α) (g : ℕ → α → β) :
    ∀ n : ℕ, ((List.range n).filterMap fun j => (xs.get? j).map (g j)).length
      = min n xs.length := by
  intro n
  induction n with
  | zero => simp
  | succ n ih =>
    rw [List.range_succ, List.filterMap_append, List.length_append, ih]
    rcases Nat.lt_or_ge n xs.length with h | h
    · rw [List.filterMap_cons_some
          (by simpa using congrArg (Option.map (g n)) (get?_eq_some_getD xs n h)),
        List.filterMap_nil, List.length_cons, List.length_nil]
      omega
    · rw [List.filterMap_cons_none
          (by simpa using congrArg (Option.map (g n)) (List.get?_eq_none.2 h)),
        List.filterMap_nil, List.length_nil]
      omega

/-- Behaviour of the detail-record loop when every `prevRawIdeal` lookup is
in range (`i + n ≤ L + 1`, where the iteration at index `L` itself is merely
skipped): the loop succeeds, appends `min n (L - i)` nodes, and the `j`-th
appended node is built from ideal sample `i + j`, its wrap-around predecessor
and the `j`-th 72-byte chunk of the remaining buffer. -/
lemma detailLoop_spec (O : Ops) (rawIdeal : List IdealSample) (L : ℕ)
    (hlen : rawIdeal.length = L) (hpos : 1 ≤ L) :
    ∀ (n i : ℕ) (buf : List ℕ) (acc : List TrackDetailNode),
      i + n ≤ L + 1 →
      ∃ emitted : List TrackDetailNode,
        detailLoop O rawIdeal (L : ℤ) i n buf acc = .ok (acc ++ emitted) ∧
        emitted.length = min n (L - i) ∧
        ∀ j : ℕ, emitted.get? j =
          if i + j < L ∧ j < n then
            some (mkTrackDetailNode O (rawIdeal.getD (i + j) default)
              (prevSample rawIdeal L (i + j)) (detailChunk O (buf.drop (72 * j))))
          else none := by
  intro n
  induction n with
  | zero =>
    intro i buf acc _
    refine ⟨[], by simp [detailLoop], by simp, ?_⟩
    intro j
    simp
  | succ n ih =>
    intro i buf acc hb
    have hiL : i ≤ L := by omega
    have hprev : pyGet rawIdeal (if (0 : ℤ) < (i : ℕ) then (i : ℤ) - 1 else (L : ℤ) - 1)
        = some (prevSample rawIdeal L i) := by
      by_cases hi : 0 < i
      · rw [if_pos (by exact_mod_cast hi)]
        simp only [pyGet, if_pos (show (0 : ℤ) ≤ (i : ℤ) - 1 by omega)]
        rw [show ((i : ℤ) - 1).toNat = i - 1 by omega,
          get?_eq_some_getD rawIdeal (i - 1) (by omega),
          prevSample, if_pos hi]
      · rw [if_neg (by omega)]
        simp only [pyGet, if_pos (show (0 : ℤ) ≤ (L : ℤ) - 1 by omega)]
        rw [show ((L : ℤ) - 1).toNat = L - 1 by omega,
          get?_eq_some_getD rawIdeal (L - 1) (by omega),
          prevSample, if_neg hi]
    rcases Nat.lt_or_ge i L with hlt | hge
    · -- current index in range: one node is emitted, then recurse
      have hcur : pyGet rawIdeal ((i : ℕ) : ℤ) = some (rawIdeal.getD i default) := by
        rw [pyGet_natCast, get?_eq_some_getD rawIdeal i (by omega)]
      obtain ⟨emitted, h1, h2, h3⟩ :=
        ih (i + 1) (buf.drop 72)
          (acc ++ [mkTrackDetailNode O (rawIdeal.getD i default)
            (prevSample rawIdeal L i) (detailChunk O buf)]) (by omega)
      refine ⟨mkTrackDetailNode O (rawIdeal.getD i default)
          (prevSample rawIdeal L i) (detailChunk O buf) :: emitted, ?_, ?_, ?_⟩
      · simp only [detailLoop, hprev, hcur]
        rw [h1, List.append_assoc, List.singleton_append]
      · simp only [List.length_cons, h2]
        omega
      · intro j
        cases j with
        | zero =>
          simp only [List.get?]
          rw [if_pos ⟨by omega, by omega⟩]
          simp
        | succ j =>
          simp only [List.get?]
          rw [h3 j]
          by_cases hc : i + (j + 1) < L ∧ j + 1 < n + 1
          · rw [if_pos ⟨by omega, by omega⟩, if_pos hc]
            have harith : i + 1 + j = i + (j + 1) := by omega
            have hdrop : (buf.drop 72).drop (72 * j) = buf.drop (72 * (j + 1)) := by
              rw [List.drop_drop]
              congr 1
              omega
            rw [harith, hdrop]
          · rw [if_neg (by omega), if_neg hc]
    · -- i = L: the rawIdeal[i] lookup fails inside the try, record skipped
      have hiE : i = L := by omega
      have hn0 : n = 0 := by omega
      have hcur : pyGet rawIdeal ((i : ℕ) : ℤ) = none := by
        rw [pyGet_natCast, List.get?_eq_none.2 (by omega)]
      subst hn0
      refine ⟨[], ?_, by simp [hiE], ?_⟩
      · simp only [detailLoop, hprev, hcur]
        simp [detailLoop]
      · intro j
        rw [if_neg (by omega)]
        simp

lemma nodesToDictsAux_map_index (iw : Bool) (ss : ℕ) :
    ∀ (nodes : List TrackDetailNode) (idx : ℕ),
      (nodesToDictsAux iw ss idx nodes).map OutputRecord.index
        = (List.range' idx nodes.length).filter fun i => i % ss == 0 := by
  intro nodes
  induction nodes with
  | nil => intro idx; rfl
  | cons n rest ih =>
    intro idx
    by_cases h : idx % ss = 0
    · simp [nodesToDictsAux, h, recordOf, ih, List.range'_succ, List.filter_cons]
    · simp [nodesToDictsAux, h, ih, List.range'_succ, List.filter_cons]

lemma nodesToDictsAux_mem (iw : Bool) (ss : ℕ) :
    ∀ (nodes : List TrackDetailNode) (idx : ℕ) (r : OutputRecord),
      r ∈ nodesToDictsAux iw ss idx nodes →
      ∃ i n, n ∈ nodes ∧ r = recordOf i iw n := by
  intro nodes
  induction nodes with
  | nil => intro idx r h; simp [nodesToDictsAux] at h
  | cons n rest ih =>
    intro idx r h
    rw [nodesToDictsAux] at h
    by_cases hc : idx % ss ≠ 0
    · rw [if_pos hc] at h
      obtain ⟨i, m, hm, hr⟩ := ih (idx + 1) r h
      exact ⟨i, m, by simp [hm], hr⟩
    · rw [if_neg hc] at h
      rcases List.mem_cons.1 h with h | h
      · exact ⟨idx, n, by simp, h⟩
      · obtain ⟨i, m, hm, hr⟩ := ih (idx + 1) r h
        exact ⟨i, m, by simp [hm], hr⟩

/-! ### Claim theorems -/

/-- C1: the direction of every constructed node is
`-degrees(atan2(prev.z - cur.y, cur.x - prev.x))` — the first `atan2`
argument mixes the previous sample's `z` with the current sample's `y`. -/
theorem direction_cross_axis_formula (O : Ops) (cur prev : IdealSample) (d : List ℚ) :
    (mkTrackDetailNode O cur prev d).direction
      = -(degrees O (O.atan2 (prev.z - cur.y) (cur.x - prev.x))) := by
  simp only [mkTrackDetailNode]
  cases d[5]? <;> cases d[6]? <;> rfl

/-- C2 counterexample: with three nodes and stride 2, the record at retained
position `k = 1` carries `index = 2` (the original node index), not `1`. -/
theorem retained_index_not_dense :
    ((nodes_to_dicts (List.replicate 3 default) false 2).map OutputRecord.index).get? 1
      ≠ some 1 := by decide

/-- C2 amended: the `index` field of each output record is the node's
original position in the unfiltered sequence (the indices retained by the
stride filter, in order), not the dense retained position. -/
theorem output_index_is_original_enumerate (nodes : List TrackDetailNode) (iw : Bool)
    (ss : ℕ) (_hss : 1 ≤ ss) :
    (nodes_to_dicts nodes iw ss).map OutputRecord.index
      = (List.range nodes.length).filter fun i => i % ss == 0 := by
  rw [nodes_to_dicts, nodesToDictsAux_map_index, List.range_eq_range']

/-- Witness for the amended C2 theorem at three nodes and stride 2. -/
theorem output_index_witness :
    (nodes_to_dicts (List.replicate 3 default) true 2).map OutputRecord.index
      = (List.range (List.replicate 3 (default : TrackDetailNode)).length).filter
          fun i => i % 2 == 0 :=
  output_index_is_original_enumerate (List.replicate 3 default) true 2 (by decide)

/-- C4 counterexample: a node whose detail record is zero-filled (so indices 5
and 6 are 0) produces, with walls requested, wall fields equal to the rotated
position — not null. -/
theorem zero_wall_offsets_walls_not_null :
    ((nodes_to_dicts [zeroDetailNode] true 1).map OutputRecord.walls)
      ≠ [some (none, none)] := by decide

/-- C4 amended: when the wall projection fails (detail record shorter than 7
entries) the wall points are absent, the output wall fields are null and
`trackCenter` falls back to `position`; when the detail record is merely zero
at indices 5 and 6, the wall points equal `position` exactly (so the output
wall fields are the rotated position, not null) and `trackCenter` also equals
`position`. -/
theorem wall_fallback_amended (O : Ops) (cur prev : IdealSample) (d : List ℚ) (idx : ℕ) :
    (d[6]? = none →
        (mkTrackDetailNode O cur prev d).wallLeft = none
        ∧ (mkTrackDetailNode O cur prev d).wallRight = none
        ∧ (mkTrackDetailNode O cur prev d).trackCenter = (cur.x, cur.y, cur.z)
        ∧ (recordOf idx true (mkTrackDetailNode O cur prev d)).walls = some (none, none))
    ∧ (d[5]? = some 0 → d[6]? = some 0 →
        (mkTrackDetailNode O cur prev d).wallLeft = some (cur.x, cur.y, cur.z)
        ∧ (mkTrackDetailNode O cur prev d).wallRight = some (cur.x, cur.y, cur.z)
        ∧ (mkTrackDetailNode O cur prev d).trackCenter = (cur.x, cur.y, cur.z)
        ∧ (recordOf idx true (mkTrackDetailNode O cur prev d)).walls
            = some (some (rotate90 (cur.x, cur.y, cur.z)),
                some (rotate90 (cur.x, cur.y, cur.z)))) := by
  constructor
  · intro h6
    cases h5 : d[5]? <;>
      simp [mkTrackDetailNode, h5, h6, recordOf]
  · intro h5 h6
    simp [mkTrackDetailNode, h5, h6, recordOf, slideVec2d, mul_zero, add_zero,
      sub_zero, add_self_div_two]

/-- Witness for the amended C4 theorem: the projection-failure branch on an
empty detail record and the zero-offset branch on an all-zero detail record. -/
theorem wall_fallback_witness :
    ((mkTrackDetailNode opsEx idealEx idealEx []).wallLeft = none
      ∧ (mkTrackDetailNode opsEx idealEx idealEx []).wallRight = none
      ∧ (mkTrackDetailNode opsEx idealEx idealEx []).trackCenter
          = (idealEx.x, idealEx.y, idealEx.z)
      ∧ (recordOf 0 true (mkTrackDetailNode opsEx idealEx idealEx [])).walls
          = some (none, none))
    ∧ ((mkTrackDetailNode opsEx idealEx idealEx (List.replicate 18 0)).wallLeft
          = some (idealEx.x, idealEx.y, idealEx.z)
      ∧ (mkTrackDetailNode opsEx idealEx idealEx (List.replicate 18 0)).wallRight
          = some (idealEx.x, idealEx.y, idealEx.z)
      ∧ (mkTrackDetailNode opsEx idealEx idealEx (List.replicate 18 0)).trackCenter
          = (idealEx.x, idealEx.y, idealEx.z)
      ∧ (recordOf 0 true (mkTrackDetailNode opsEx idealEx idealEx (List.replicate 18 0))).walls
          = some (some (rotate90 (idealEx.x, idealEx.y, idealEx.z)),
              some (rotate90 (idealEx.x, idealEx.y, idealEx.z)))) :=
  ⟨(wall_fallback_amended opsEx idealEx idealEx [] 0).1 rfl,
   (wall_fallback_amended opsEx idealEx idealEx (List.replicate 18 0) 0).2 (by decide) (by decide)⟩

/-- C6 counterexample: the plain-text writer, given an empty record sequence,
still creates (opens) the output file — producing an empty file — and prints
no report. -/
theorem txt_empty_still_creates_file :
    (write_txt ([] : List OutputRecord)).1 ≠ none
      ∧ (write_txt ([] : List OutputRecord)).2 = [] := by decide

/-- C6 amended: on an empty record sequence the CSV writer creates no file
and reports "No data to write.", while the plain-text writer creates an
empty file and reports nothing. -/
theorem empty_export_behaviour :
    write_csv [] = (none, ["No data to write."])
      ∧ write_txt [] = (some [], []) := by decide

/-- C8: with wall offsets `L = rawDetail[5]` and `R = rawDetail[6]` present,
`wallLeft` is `position` slid by `L` along heading `-direction + 90` and
`wallRight` is `position` slid by `R` along heading `-direction - 90`; the
slide moves `(x, y, z)` to `(x + cos(h·π/180)·o, y, z - sin(h·π/180)·o)` and an
offset of 0 leaves the point unchanged. -/
theorem wall_projection_formula (O : Ops) (cur prev : IdealSample) (d : List ℚ)
    (wl wr : ℚ) (h5 : d[5]? = some wl) (h6 : d[6]? = some wr) :
    ((mkTrackDetailNode O cur prev d).wallLeft
        = some (slideVec2d O (cur.x, cur.y, cur.z)
            (-(mkTrackDetailNode O cur prev d).direction + 90) wl)
      ∧ (mkTrackDetailNode O cur prev d).wallRight
        = some (slideVec2d O (cur.x, cur.y, cur.z)
            (-(mkTrackDetailNode O cur prev d).direction - 90) wr))
    ∧ ∀ (p : ℚ × ℚ × ℚ) (h : ℚ), slideVec2d O p h 0 = p := by
  constructor
  · constructor <;> simp [mkTrackDetailNode, h5, h6]
  · intro p h
    simp [slideVec2d]

/-- Witness for C8 at the concrete detail record `0, 1, …, 17`. -/
theorem wall_projection_witness :
    ((mkTrackDetailNode opsEx idealEx ideal100 detailEx).wallLeft
        = some (slideVec2d opsEx (idealEx.x, idealEx.y, idealEx.z)
            (-(mkTrackDetailNode opsEx idealEx ideal100 detailEx).direction + 90) 5)
      ∧ (mkTrackDetailNode opsEx idealEx ideal100 detailEx).wallRight
        = some (slideVec2d opsEx (idealEx.x, idealEx.y, idealEx.z)
            (-(mkTrackDetailNode opsEx idealEx ideal100 detailEx).direction - 90) 6))
    ∧ ∀ (p : ℚ × ℚ × ℚ) (h : ℚ), slideVec2d opsEx p h 0 = p :=
  wall_projection_formula opsEx idealEx ideal100 detailEx 5 6 (by decide) (by decide)

/-- C9: `nodes_to_dicts` applies the single map `(x, y, z) ↦ (z, y, -x)` to
`position`, `wallLeft` and `wallRight` alike, and that map squares to
`(x, y, z) ↦ (-x, y, -z)` and has order four. -/
theorem rotate90_uniform_and_involutive :
    (∀ (nodes : List TrackDetailNode) (iw : Bool) (ss k : ℕ) (r : OutputRecord),
        (nodes_to_dicts nodes iw ss).get? k = some r →
        ∃ n ∈ nodes, (r.x, r.y, r.z) = rotate90 n.position ∧
          (iw = true → r.walls = some (n.wallLeft.map rotate90, n.wallRight.map rotate90)))
    ∧ (∀ p : ℚ × ℚ × ℚ, rotate90 (rotate90 p) = (-p.1, p.2.1, -p.2.2))
    ∧ ∀ p : ℚ × ℚ × ℚ, rotate90 (rotate90 (rotate90 (rotate90 p))) = p := by
  refine ⟨?_, ?_, ?_⟩
  · intro nodes iw ss k r h
    have hmem : r ∈ nodes_to_dicts nodes iw ss := List.get?_mem h
    obtain ⟨i, n, hn, hr⟩ := nodesToDictsAux_mem iw ss nodes 0 r hmem
    subst hr
    refine ⟨n, hn, rfl, fun hiw => ?_⟩
    simp [recordOf, hiw]
  · intro p; rfl
  · intro p; simp [rotate90]

/-- C3: with a valid header and ideal block and `0 ≤ extraCount ≤ length`,
parsing succeeds and emits exactly `extraCount` nodes — one per detail record,
including records zero-filled for lack of bytes. -/
theorem node_count_eq_extraCount (O : Ops) (bs : List ℕ)
    (rawIdeal : List IdealSample) (rest : List ℕ)
    (hhdr : 16 ≤ bs.length)
    (hideal : readRawIdeal O (headerLength bs).toNat (bs.drop 16) = some (rawIdeal, rest))
    (h0 : 0 ≤ extraCountOf rest) (hle : extraCountOf rest ≤ headerLength bs) :
    ∃ nodes, getNodesFromFastLane O bs = .ok nodes ∧
      nodes.length = (extraCountOf rest).toNat := by
  have hlen := readRawIdeal_length O _ _ _ _ hideal
  simp only [getNodesFromFastLane, if_neg (show ¬ bs.length < 16 by omega), hideal]
  by_cases hec : (extraCountOf rest).toNat = 0
  · rw [hec]
    exact ⟨[], by simp [detailLoop], by simp [hec]⟩
  · have hcast : (((headerLength bs).toNat : ℕ) : ℤ) = headerLength bs :=
      Int.toNat_of_nonneg (by omega)
    rw [← hcast]
    obtain ⟨emitted, h1, h2, h3⟩ :=
      detailLoop_spec O rawIdeal (headerLength bs).toNat hlen (by omega)
        (extraCountOf rest).toNat 0 (rest.drop 4) [] (by omega)
    exact ⟨emitted, by simpa using h1, by omega⟩

/-- Witness for C3 on a 60-byte file with `length = 2`, `extraCount = 1` and a
truncated (zero-filled) detail record. -/
theorem node_count_witness :
    ∃ nodes, getNodesFromFastLane opsEx bytesEx = .ok nodes ∧
      nodes.length = (extraCountOf [1, 0, 0, 0]).toNat :=
  node_count_eq_extraCount opsEx bytesEx [ideal100, ideal101] [1, 0, 0, 0]
    (by decide) (by rfl) (by decide) (by decide)

/-- C5: the "previous" ideal sample used for detail index `i` is
`rawIdeal[i-1]` for `i > 0` and `rawIdeal[length-1]` for `i = 0` — an
in-range wrap-around, never a default. -/
theorem previous_sample_wraparound (O : Ops) (bs : List ℕ)
    (rawIdeal : List IdealSample) (rest : List ℕ)
    (hhdr : 16 ≤ bs.length)
    (hideal : readRawIdeal O (headerLength bs).toNat (bs.drop 16) = some (rawIdeal, rest))
    (hpos : 1 ≤ headerLength bs)
    (_h0 : 0 ≤ extraCountOf rest) (hle : extraCountOf rest ≤ headerLength bs) :
    ∃ nodes, getNodesFromFastLane O bs = .ok nodes ∧
      ∀ i : ℕ, i < (extraCountOf rest).toNat →
        ∃ cur prev d, nodes.get? i = some (mkTrackDetailNode O cur prev d)
          ∧ rawIdeal.get? i = some cur
          ∧ (if i = 0 then rawIdeal.get? ((headerLength bs).toNat - 1) = some prev
             else rawIdeal.get? (i - 1) = some prev) := by
  have hlen := readRawIdeal_length O _ _ _ _ hideal
  simp only [getNodesFromFastLane, if_neg (show ¬ bs.length < 16 by omega), hideal]
  have hcast : (((headerLength bs).toNat : ℕ) : ℤ) = headerLength bs :=
    Int.toNat_of_nonneg (by omega)
  rw [← hcast]
  obtain ⟨emitted, h1, h2, h3⟩ :=
    detailLoop_spec O rawIdeal (headerLength bs).toNat hlen (by omega)
      (extraCountOf rest).toNat 0 (rest.drop 4) [] (by omega)
  refine ⟨emitted, by simpa using h1, ?_⟩
  intro i hi
  have hiL : i < (headerLength bs).toNat := by omega
  refine ⟨rawIdeal.getD i default, prevSample rawIdeal (headerLength bs).toNat i,
    detailChunk O ((rest.drop 4).drop (72 * i)), ?_, ?_, ?_⟩
  · have h := h3 i
    rw [if_pos ⟨by omega, hi⟩] at h
    simpa using h
  · exact get?_eq_some_getD rawIdeal i (by omega)
  · by_cases hz : i = 0
    · subst hz
      rw [if_pos rfl]
      simp only [Int.toNat_natCast]
      rw [get?_eq_some_getD rawIdeal ((headerLength bs).toNat - 1) (by omega)]
      simp [prevSample]
    · rw [if_neg hz, get?_eq_some_getD rawIdeal (i - 1) (by omega)]
      simp [prevSample, Nat.pos_of_ne_zero hz]

/-- Witness for C5 on the 60-byte file: its single node uses the wrap-around
predecessor `rawIdeal[length - 1]`. -/
theorem previous_sample_witness :
    ∃ nodes, getNodesFromFastLane opsEx bytesEx = .ok nodes ∧
      ∀ i : ℕ, i < (extraCountOf [1, 0, 0, 0]).toNat →
        ∃ cur prev d, nodes.get? i = some (mkTrackDetailNode opsEx cur prev d)
          ∧ [ideal100, ideal101].get? i = some cur
          ∧ (if i = 0 then
               [ideal100, ideal101].get? ((headerLength bytesEx).toNat - 1) = some prev
             else [ideal100, ideal101].get? (i - 1) = some prev) :=
  previous_sample_wraparound opsEx bytesEx [ideal100, ideal101] [1, 0, 0, 0]
    (by decide) (by rfl) (by decide) (by decide) (by decide)

/-- C7: a file ending right after the ideal block (no `extraCount` field)
still parses successfully, with zero nodes. -/
theorem missing_extraCount_parses_empty (O : Ops) (bs : List ℕ)
    (rawIdeal : List IdealSample)
    (hhdr : 16 ≤ bs.length)
    (hideal : readRawIdeal O (headerLength bs).toNat (bs.drop 16) = some (rawIdeal, [])) :
    getNodesFromFastLane O bs = .ok [] := by
  simp only [getNodesFromFastLane, if_neg (show ¬ bs.length < 16 by omega), hideal]
  rfl

/-- Witness for C7 on a 36-byte file that stops right after its one ideal
record. -/
theorem missing_extraCount_witness :
    getNodesFromFastLane opsEx bytesNoExtra = .ok [] :=
  missing_extraCount_parses_empty opsEx bytesNoExtra [ideal100] (by decide) (by rfl)

/-- C10 counterexample: `length = 1`, `extraCount = 3` — at detail index 2 the
`prevRawIdeal` lookup raises outside the per-record handler, so the whole
parse fails instead of succeeding with `min(max(3,0),1) = 1` node. -/
theorem extraCount_overflow_crashes :
    getNodesFromFastLane opsEx bytesOverflow = .error () := by rfl

/-- C10 amended: an `extraCount` exceeding `length` is tolerated only up to
`length + 1`: then out-of-range detail indices are skipped by the per-record
handler and the node count is `min(extraCount.toNat, length.toNat)`; from
`extraCount = length + 2` on, the previous-sample lookup escapes the handler
and the parse fails. -/
theorem extraCount_overflow_amended (O : Ops) (bs : List ℕ)
    (rawIdeal : List IdealSample) (rest : List ℕ)
    (hhdr : 16 ≤ bs.length)
    (hideal : readRawIdeal O (headerLength bs).toNat (bs.drop 16) = some (rawIdeal, rest))
    (hpos : 1 ≤ headerLength bs)
    (hle : extraCountOf rest ≤ headerLength bs + 1) :
    ∃ nodes, getNodesFromFastLane O bs = .ok nodes ∧
      nodes.length = min (extraCountOf rest).toNat (headerLength bs).toNat := by
  have hlen := readRawIdeal_length O _ _ _ _ hideal
  simp only [getNodesFromFastLane, if_neg (show ¬ bs.length < 16 by omega), hideal]
  have hcast : (((headerLength bs).toNat : ℕ) : ℤ) = headerLength bs :=
    Int.toNat_of_nonneg (by omega)
  rw [← hcast]
  obtain ⟨emitted, h1, h2, h3⟩ :=
    detailLoop_spec O rawIdeal (headerLength bs).toNat hlen (by omega)
      (extraCountOf rest).toNat 0 (rest.drop 4) [] (by omega)
  exact ⟨emitted, by simpa using h1, by omega⟩

/-- Witness for the amended C10 theorem: `length = 1`, `extraCount = 2` parses
to one node. -/
theorem extraCount_overflow_witness :
    ∃ nodes, getNodesFromFastLane opsEx bytesEdge = .ok nodes ∧
      nodes.length = min (extraCountOf [2, 0, 0, 0]).toNat (headerLength bytesEdge).toNat :=
  extraCount_overflow_amended opsEx bytesEdge [ideal100] [2, 0, 0, 0]
    (by decide) (by rfl) (by decide) (by decide)

/-- Witness for C9 at a single zero-detail node with walls requested. -/
theorem rotate90_uniform_witness :
    ∃ n ∈ [zeroDetailNode],
      ((recordOf 0 true zeroDetailNode).x, (recordOf 0 true zeroDetailNode).y,
        (recordOf 0 true zeroDetailNode).z) = rotate90 n.position ∧
      (true = true → (recordOf 0 true zeroDetailNode).walls
          = some (n.wallLeft.map rotate90, n.wallRight.map rotate90)) :=
  rotate90_uniform_and_involutive.1 [zeroDetailNode] true 1 0
    (recordOf 0 true zeroDetailNode) rfl

end FastLane
